import Mathlib

set_option maxRecDepth 4000

/-!
Shallow embedding of the long-recording chunking and stitching pipeline of
src/src/cursor-integration.ts (functions splitAudioFile, transcribeAudio,
getLanguageMode, stopRecording, cleanupTempFiles).

Strings are modelled as lists of characters (JavaScript string indices are
UTF-16 code units; every literal the embedded code compares against is ASCII,
so characters and code units coincide).  External effects (ffmpeg, ffprobe,
the transcription service, the file system, notifications) enter as explicit
inputs or as recorded outputs.  JavaScript numbers that hold durations are
modelled as exact rationals.
-/

/-- Characters treated as whitespace by the JavaScript trim function
    (the ASCII subset; all literals compared after trimming are ASCII). -/
def isJsSpace (c : Char) : Bool :=
  c = ' ' || c = '\t' || c = '\n' || c = '\r' || c = Char.ofNat 11 || c = Char.ofNat 12

/-- JavaScript s.trim(): drop whitespace from both ends. -/
def jsTrim (s : List Char) : List Char :=
  ((s.dropWhile isJsSpace).reverse.dropWhile isJsSpace).reverse

/-- s contains at least one non-whitespace character, i.e. s.trim() is
    nonempty. -/
def hasContent (s : List Char) : Bool :=
  s.any (fun c => !(isJsSpace c))

/-- JavaScript s.split(' '): split at every single space character; adjacent
    separators and an empty input yield empty fragments ([] splits to [[]]). -/
def jsSplitSp : List Char → List (List Char)
  | [] => [[]]
  | c :: cs =>
    let r := jsSplitSp cs
    if c = ' ' then [] :: r
    else
      match r with
      | w :: ws => (c :: w) :: ws
      | [] => [[c]]

/-- JavaScript arr.join(' '). -/
def jsJoinSp : List (List Char) → List Char
  | [] => []
  | [w] => w
  | w :: ws => w ++ ' ' :: jsJoinSp ws

/-- JavaScript arr.slice(-n) and s.slice(-n): the last n elements, or the
    whole list when it is shorter than n. -/
def jsTakeLast {α : Type} (l : List α) (n : Nat) : List α :=
  l.drop (l.length - n)

/-- JavaScript s.toLowerCase() restricted to the characters it is applied to
    here (ASCII case folding). -/
def jsLower (s : List Char) : List Char :=
  s.map Char.toLower

/-- JavaScript s.indexOf(pat): position of the first occurrence of pat in s,
    if any; the empty pattern is found at position 0. -/
def jsIndexOf : List Char → List Char → Option Nat
  | [], pat => if pat.isPrefixOf ([] : List Char) then some 0 else none
  | c :: s, pat =>
    if pat.isPrefixOf (c :: s) then some 0
    else (jsIndexOf s pat).map (· + 1)

/-- JavaScript s.includes(pat). -/
def jsIncludes (s pat : List Char) : Bool :=
  (jsIndexOf s pat).isSome

/-- JavaScript s.startsWith(c) for a one-character argument. -/
def jsStartsWithCh (s : List Char) (c : Char) : Bool :=
  match s with
  | [] => false
  | d :: _ => d = c

/-- JavaScript s.endsWith(c) for a one-character argument. -/
def jsEndsWithCh (s : List Char) (c : Char) : Bool :=
  match s.getLast? with
  | some d => d = c
  | none => false

/-- Number of positions at which pat occurs inside s (occurrences may
    overlap); s repeats pat exactly when this count is at least 2. -/
def countSubstr (s pat : List Char) : Nat :=
  ((List.range (s.length + 1)).filter (fun i => pat.isPrefixOf (s.drop i))).length

/-- First of the two literal instruction sentences the source compares
    transcription results against (cursor-integration.ts lines 676-677 and
    738-739). -/
def echoPrompt1 : List Char :=
  "This is a voice recording that may contain multiple sentences.".data

/-- Second of the two literal instruction sentences (lines 677 and 739). -/
def echoPrompt2 : List Char :=
  "This is a voice recording that may contain multiple sentences. Transcribe exactly what was said.".data

/-- chunkText.trim() equals one of the two known instruction literals
    (the echoed-prompt test, lines 676-677 / 738-739). -/
def isPromptEcho (t : List Char) : Bool :=
  decide (jsTrim t = echoPrompt1) || decide (jsTrim t = echoPrompt2)

/-- Outcome of one transcription-service call in multi-chunk mode: either the
    call threw (caught at lines 778-782 and turned into a warning) or it
    returned text, possibly empty. -/
inductive ChunkOutcome where
  | failure : ChunkOutcome
  | text : List Char → ChunkOutcome
deriving DecidableEq

/-- A chunk outcome that contributes no text to the stitched transcript:
    a failed call, a prompt echo, or a blank result (lines 737-747, 778-782). -/
def discardable : ChunkOutcome → Bool
  | .failure => true
  | .text t => isPromptEcho t || (jsTrim t).isEmpty

/-- Last 5 whitespace-delimited words of the accumulated text, case folded
    (line 754). -/
def lastWordsOf (acc : List Char) : List Char :=
  jsLower (jsJoinSp (jsTakeLast (jsSplitSp acc) 5))

/-- First 5 whitespace-delimited words of the new chunk, case folded
    (line 755). -/
def firstWordsOf (t : List Char) : List Char :=
  jsLower (jsJoinSp ((jsSplitSp t).take 5))

/-- The overlap heuristic of line 757: either five-word window is a substring
    of the other. -/
def overlapDetected (acc t : List Char) : Bool :=
  jsIncludes (lastWordsOf acc) (firstWordsOf t) ||
  jsIncludes (firstWordsOf t) (lastWordsOf acc)

/-- The boundary punctuation test of lines 767-770. -/
def boundaryPunct (acc t : List Char) : Bool :=
  jsEndsWithCh acc '.' || jsStartsWithCh t '.' ||
  jsEndsWithCh acc '!' || jsStartsWithCh t '!' ||
  jsEndsWithCh acc '?' || jsStartsWithCh t '?' ||
  jsEndsWithCh acc ',' || jsStartsWithCh t ','

/-- Text appended to the accumulated transcription for a usable chunk at a
    positive loop index (lines 752-773); every branch of the source appends
    to combinedTranscription, so the step is acc ++ joinSuffix acc t. -/
def joinSuffix (acc t : List Char) : List Char :=
  if overlapDetected acc t then
    match jsIndexOf (jsLower t) (lastWordsOf acc) with
    | some idx =>
      if 0 < idx then ' ' :: t.drop (idx + (lastWordsOf acc).length)
      else ' ' :: t
    | none => ' ' :: t
  else if boundaryPunct acc t then ' ' :: t
  else '.' :: ' ' :: t

/-- The smart-joining step of lines 752-773. -/
def joinChunk (acc t : List Char) : List Char :=
  acc ++ joinSuffix acc t

/-- One iteration of the multi-chunk loop body for loop index i
    (lines 737-782): a thrown call leaves the accumulator unchanged; a prompt
    echo or a blank result is skipped; otherwise the chunk is joined when
    i > 0 and taken verbatim when i = 0.  The source tests the loop index i,
    not whether a usable chunk was seen before. -/
def stepChunk (i : Nat) (acc : List Char) : ChunkOutcome → List Char
  | .failure => acc
  | .text t =>
    if isPromptEcho t then acc
    else if (jsTrim t).isEmpty then acc
    else if 0 < i then joinChunk acc t
    else t

/-- The multi-chunk loop of transcribeAudio (lines 693-783). -/
def stitchGo : Nat → List Char → List ChunkOutcome → List Char
  | _, acc, [] => acc
  | i, acc, o :: rest => stitchGo (i + 1) (stepChunk i acc o) rest

/-- Result of the multi-chunk branch of transcribeAudio: either the thrown
    error message or the combined transcription. -/
inductive StitchResult where
  | error : List Char → StitchResult
  | ok : List Char → StitchResult
deriving DecidableEq

/-- Multi-chunk branch of transcribeAudio (lines 688-791): run the loop from
    an empty accumulator and throw when no usable text was produced
    (lines 785-787). -/
def transcribeMulti (outcomes : List ChunkOutcome) : StitchResult :=
  if (stitchGo 0 [] outcomes).isEmpty || (jsTrim (stitchGo 0 [] outcomes)).isEmpty then
    .error "Failed to transcribe any audio content from the chunks".data
  else .ok (stitchGo 0 [] outcomes)

/-- The prompt parameter sent to the service in single-shot mode (line 647). -/
def singleShotPrompt : List Char :=
  "".data

/-- Result of the single-file branch: the two thrown errors of lines 672 and
    679, or the text returned verbatim. -/
inductive SingleShotOutcome where
  | noSpeechError : SingleShotOutcome
  | promptEchoError : SingleShotOutcome
  | ok : List Char → SingleShotOutcome
deriving DecidableEq

/-- Single-file branch of transcribeAudio (lines 637-687): reject a blank
    result first (lines 670-673), then a result whose trim equals one of the
    two instruction literals (lines 676-680), otherwise return the text
    verbatim. -/
def transcribeSingle (result : List Char) : SingleShotOutcome :=
  if (jsTrim result).isEmpty then .noSpeechError
  else if jsTrim result = echoPrompt1 ∨ jsTrim result = echoPrompt2 then .promptEchoError
  else .ok result

/-- Outcome of probing the recording with ffprobe (lines 527-567): the
    external process failed or exited nonzero, the printed value did not parse
    as a number (parseFloat gave NaN), or a numeric duration in seconds. -/
inductive ProbeResult where
  | err : ProbeResult
  | nan : ProbeResult
  | dur : ℚ → ProbeResult

/-- One extracted chunk: its zero-based index and the -ss (start) and -t
    (length) arguments passed to ffmpeg (lines 581-598). -/
structure Chunk where
  index : Nat
  start : ℚ
  len : ℚ
deriving DecidableEq

/-- passthrough models returning [inputFile] (the original asset, unchanged,
    as a single-element list); chunks models returning the list of freshly
    extracted chunk files. -/
inductive SplitOutcome where
  | passthrough : SplitOutcome
  | chunks : List Chunk → SplitOutcome
deriving DecidableEq

/-- splitAudioFile (lines 517-629).  The external world enters as inputs:
    whether ffmpeg is installed, the ffprobe outcome, and whether extraction
    of chunk i succeeds (the loop of lines 581-621 aborts to the catch on the
    first failure, which returns the original file).  The Bool component
    records whether a user-visible warning (vscode.window.showWarningMessage,
    lines 521 and 626) is shown on that path; the non-numeric-duration path
    (lines 564-567) and the short-duration path (lines 569-572) only log to
    the console. -/
def splitAudioFile (hasFFmpeg : Bool) (probe : ProbeResult) (extractOk : Nat → Bool)
    (maxChunkDuration : ℚ := 60) : SplitOutcome × Bool :=
  if !hasFFmpeg then (.passthrough, true)
  else
    match probe with
    | .err => (.passthrough, true)
    | .nan => (.passthrough, false)
    | .dur d =>
      if d ≤ maxChunkDuration then (.passthrough, false)
      else
        if (List.range (⌈d / maxChunkDuration⌉).toNat).all extractOk then
          (.chunks ((List.range (⌈d / maxChunkDuration⌉).toNat).map
            (fun i => ⟨i, (i : ℚ) * maxChunkDuration, maxChunkDuration⟩)), false)
        else (.passthrough, true)

/-- The language codes getLanguageMode recognizes (the languageMap keys,
    lines 464-476). -/
def recognizedLanguageCodes : List (List Char) :=
  ["en", "de", "fr", "es", "it", "pt", "nl", "ru", "zh", "ja", "ko"].map String.data

/-- The continuation prompt built for chunk index i from the text accumulated
    so far (lines 697-722): empty for the first chunk; otherwise an
    instruction embedding the trailing 150 characters, with German, French
    and Spanish wordings when that language code is configured and the
    English wording in every other case (including every other recognized
    code). -/
def promptFor (langCode : Option (List Char)) (i : Nat) (combined : List Char) : List Char :=
  if 0 < i then
    match langCode with
    | some c =>
      if c = "de".data then "Setze fort von: \"".data ++ jsTakeLast combined 150 ++ "\"".data
      else if c = "fr".data then
        "Continuez à partir de: \"".data ++ jsTakeLast combined 150 ++ "\"".data
      else if c = "es".data then
        "Continúa desde: \"".data ++ jsTakeLast combined 150 ++ "\"".data
      else "Continue from: \"".data ++ jsTakeLast combined 150 ++ "\"".data
    | none => "Continue from: \"".data ++ jsTakeLast combined 150 ++ "\"".data
  else []

/-- The prompt computed for each chunk of the multi-chunk loop, tracking the
    loop evolution of the accumulated text (lines 697-722 inside the loop of
    lines 693-783; the prompt is built before the service call, so failed and
    discarded chunks also receive one). -/
def promptsUsed (langCode : Option (List Char)) :
    Nat → List Char → List ChunkOutcome → List (List Char)
  | _, _, [] => []
  | i, acc, o :: rest =>
    promptFor langCode i acc :: promptsUsed langCode (i + 1) (stepChunk i acc o) rest

/-- cleanupTempFiles (lines 1388-1399) on an ideal file system: the file
    existence map after deleting every listed file (per-file unlink errors
    are caught and ignored in the source; deletion is modelled as
    succeeding). -/
def cleanupTempFiles (files : List (List Char)) (existing : List Char → Bool) :
    List Char → Bool :=
  fun f => existing f && !(files.contains f)

/-- Outcome of the transcribeAudio call made inside stopRecording. -/
inductive TranscribeRun where
  | ok : List Char → TranscribeRun
  | err : TranscribeRun
deriving DecidableEq

/-- Exit behaviour of stopRecording (lines 1283-1385) with respect to
    temporary files: the result is (text copied to the clipboard, files passed
    to cleanupTempFiles).  cleanupTempFiles is invoked only on the success
    path (line 1362); the no-audio-data return (lines 1302-1305), the
    missing-key return (lines 1311-1314), the blank-transcription return
    (lines 1347-1350) and the failure path (lines 1364-1376, which instead
    copies the recording to a debug file in the home directory) all exit
    without deleting anything. -/
def stopRecordingRun (audioOk apiKeyOk : Bool) (audioFiles : List (List Char))
    (tr : TranscribeRun) : Option (List Char) × List (List Char) :=
  if !audioOk then (none, [])
  else if !apiKeyOk then (none, [])
  else
    match tr with
    | .err => (none, [])
    | .ok t => if (jsTrim t).isEmpty then (none, []) else (some t, audioFiles)

/-! ### Basic facts about the embedded JavaScript string operations -/

theorem jsIndexOf_nil_pat : ∀ s : List Char, jsIndexOf s [] = some 0
  | [] => rfl
  | _ :: _ => rfl

theorem jsIncludes_nil (s : List Char) : jsIncludes s [] = true := by
  simp [jsIncludes, jsIndexOf_nil_pat]

theorem hasContent_eq_false_iff (s : List Char) :
    hasContent s = false ↔ ∀ c ∈ s, isJsSpace c = true := by
  simp [hasContent]

theorem jsTrim_eq_nil_iff (s : List Char) : jsTrim s = [] ↔ hasContent s = false := by
  rw [hasContent_eq_false_iff]
  unfold jsTrim
  rw [List.reverse_eq_nil_iff, List.dropWhile_eq_nil_iff]
  constructor
  · intro h c hc
    have hdrop : ∀ x ∈ s.dropWhile isJsSpace, isJsSpace x = true := by
      intro x hx
      exact h x (List.mem_reverse.mpr hx)
    have hsplit : List.takeWhile isJsSpace s ++ List.dropWhile isJsSpace s = s := by
      simp [List.takeWhile_append_dropWhile]
    rw [← hsplit] at hc
    rcases List.mem_append.mp hc with h1 | h2
    · exact List.mem_takeWhile_imp h1
    · exact hdrop c h2
  · intro h x hx
    exact h x ((List.dropWhile_sublist isJsSpace).subset (List.mem_reverse.mp hx))

theorem trim_nonempty_content {t : List Char} (h : (jsTrim t).isEmpty = false) :
    hasContent t = true := by
  by_contra hc
  have hc' : hasContent t = false := by revert hc; cases hasContent t <;> simp
  rw [(jsTrim_eq_nil_iff t).mpr hc'] at h
  simp at h

theorem content_trim_nonempty {t : List Char} (h : hasContent t = true) :
    (jsTrim t).isEmpty = false := by
  by_contra he
  have he' : (jsTrim t).isEmpty = true := by revert he; cases (jsTrim t).isEmpty <;> simp
  rw [(jsTrim_eq_nil_iff t).mp (List.isEmpty_iff.mp he')] at h
  simp at h

theorem content_nonnil {t : List Char} (h : hasContent t = true) : t.isEmpty = false := by
  cases t with
  | nil => simp [hasContent] at h
  | cons c cs => rfl

theorem hasContent_append (a b : List Char) :
    hasContent (a ++ b) = (hasContent a || hasContent b) :=
  List.any_append

theorem hasContent_cons_space (t : List Char) : hasContent (' ' :: t) = hasContent t := by
  simp [hasContent, isJsSpace]

/-! ### Structure of the stitching loop -/

theorem joinChunk_nil (t : List Char) : joinChunk [] t = ' ' :: t := by
  have hlast : lastWordsOf [] = [] := rfl
  have hdet : overlapDetected [] t = true := by
    unfold overlapDetected
    rw [hlast, jsIncludes_nil, Bool.or_true]
  unfold joinChunk joinSuffix
  rw [hdet, if_pos rfl, hlast, jsIndexOf_nil_pat]
  simp

theorem discardable_text_false {t : List Char} (h : discardable (ChunkOutcome.text t) = false) :
    isPromptEcho t = false ∧ (jsTrim t).isEmpty = false := by
  unfold discardable at h
  exact Bool.or_eq_false_iff.mp h

theorem stepChunk_of_discardable {o : ChunkOutcome} (i : Nat) (acc : List Char)
    (h : discardable o = true) : stepChunk i acc o = acc := by
  cases o with
  | failure => rfl
  | text t =>
    unfold discardable at h
    rcases Bool.or_eq_true_iff.mp h with h1 | h2
    · simp [stepChunk, h1]
    · by_cases h1 : isPromptEcho t = true
      · simp [stepChunk, h1]
      · simp [stepChunk, h1, h2]

theorem stepChunk_usable_pos {t : List Char} {i : Nat} (acc : List Char)
    (hi : 0 < i) (h : discardable (ChunkOutcome.text t) = false) :
    stepChunk i acc (ChunkOutcome.text t) = joinChunk acc t := by
  obtain ⟨h1, h2⟩ := discardable_text_false h
  simp [stepChunk, h1, h2, hi]

theorem stepChunk_usable_zero {t : List Char} (acc : List Char)
    (h : discardable (ChunkOutcome.text t) = false) :
    stepChunk 0 acc (ChunkOutcome.text t) = t := by
  obtain ⟨h1, h2⟩ := discardable_text_false h
  simp [stepChunk, h1, h2]

theorem stitchGo_cons (i : Nat) (acc : List Char) (o : ChunkOutcome)
    (rest : List ChunkOutcome) :
    stitchGo i acc (o :: rest) = stitchGo (i + 1) (stepChunk i acc o) rest := rfl

theorem stepChunk_index {i j : Nat} (hi : 0 < i) (hj : 0 < j) (acc : List Char)
    (o : ChunkOutcome) : stepChunk i acc o = stepChunk j acc o := by
  cases o with
  | failure => rfl
  | text t => simp [stepChunk, hi, hj]

theorem stitchGo_index : ∀ (l : List ChunkOutcome) (acc : List Char) {i j : Nat},
    0 < i → 0 < j → stitchGo i acc l = stitchGo j acc l := by
  intro l
  induction l with
  | nil => intro acc i j _ _; rfl
  | cons o rest ih =>
    intro acc i j hi hj
    rw [stitchGo_cons, stitchGo_cons, stepChunk_index hi hj]
    exact ih _ (Nat.succ_pos _) (Nat.succ_pos _)

theorem stitchGo_all_discardable : ∀ (l : List ChunkOutcome) (i : Nat) (acc : List Char),
    (∀ o ∈ l, discardable o = true) → stitchGo i acc l = acc := by
  intro l
  induction l with
  | nil => intro i acc _; rfl
  | cons o rest ih =>
    intro i acc h
    rw [stitchGo_cons, stepChunk_of_discardable _ _ (h o (List.mem_cons_self o rest))]
    exact ih _ _ (fun o' ho' => h o' (List.mem_cons_of_mem o ho'))

theorem stitchGo_skip_discarded : ∀ (ds l : List ChunkOutcome) (i : Nat) (acc : List Char),
    (∀ o ∈ ds, discardable o = true) →
    stitchGo i acc (ds ++ l) = stitchGo (i + ds.length) acc l := by
  intro ds
  induction ds with
  | nil => intro l i acc _; rfl
  | cons o rest ih =>
    intro l i acc h
    rw [List.cons_append, stitchGo_cons,
      stepChunk_of_discardable _ _ (h o (List.mem_cons_self o rest)),
      ih l (i + 1) acc (fun o' ho' => h o' (List.mem_cons_of_mem o ho'))]
    congr 1
    simp [List.length_cons]
    omega

theorem stitchGo_failure_skip : ∀ (xs ys : List ChunkOutcome) (i : Nat) (acc : List Char),
    0 < i → stitchGo i acc (xs ++ ChunkOutcome.failure :: ys) = stitchGo i acc (xs ++ ys) := by
  intro xs
  induction xs with
  | nil =>
    intro ys i acc hi
    rw [List.nil_append, List.nil_append, stitchGo_cons]
    exact stitchGo_index ys acc (Nat.succ_pos _) hi
  | cons o rest ih =>
    intro ys i acc hi
    rw [List.cons_append, List.cons_append, stitchGo_cons, stitchGo_cons]
    exact ih ys (i + 1) _ (Nat.succ_pos _)

theorem stitchGo_content : ∀ (l : List ChunkOutcome) (i : Nat) (acc : List Char),
    acc = [] ∨ hasContent acc = true →
    ((stitchGo i acc l = [] ∨ hasContent (stitchGo i acc l) = true) ∧
     (hasContent (stitchGo i acc l) = true ↔
       (hasContent acc = true ∨ ∃ o ∈ l, discardable o = false))) := by
  intro l
  induction l with
  | nil =>
    intro i acc hacc
    refine ⟨hacc, ?_⟩
    simp [stitchGo]
  | cons o rest ih =>
    intro i acc hacc
    rw [stitchGo_cons]
    by_cases hd : discardable o = true
    · rw [stepChunk_of_discardable _ _ hd]
      have H := ih (i + 1) acc hacc
      refine ⟨H.1, ?_⟩
      rw [H.2]
      constructor
      · rintro (h | ⟨o', ho', hu⟩)
        · exact Or.inl h
        · exact Or.inr ⟨o', List.mem_cons_of_mem o ho', hu⟩
      · rintro (h | ⟨o', ho', hu⟩)
        · exact Or.inl h
        · rcases List.mem_cons.mp ho' with rfl | ho''
          · rw [hd] at hu; cases hu
          · exact Or.inr ⟨o', ho'', hu⟩
    · have hd' : discardable o = false := by revert hd; cases discardable o <;> simp
      cases o with
      | failure => simp [discardable] at hd'
      | text t =>
        obtain ⟨h1, h2⟩ := discardable_text_false hd'
        have hct : hasContent t = true := trim_nonempty_content h2
        have hex : ∃ o' ∈ ChunkOutcome.text t :: rest, discardable o' = false :=
          ⟨_, List.mem_cons_self _ _, hd'⟩
        by_cases hi : 0 < i
        · rw [stepChunk_usable_pos acc hi hd']
          have hacc' : hasContent (joinChunk acc t) = true := by
            rcases hacc with rfl | hcacc
            · rw [joinChunk_nil, hasContent_cons_space]; exact hct
            · unfold joinChunk; rw [hasContent_append, hcacc, Bool.true_or]
          have H := ih (i + 1) (joinChunk acc t) (Or.inr hacc')
          refine ⟨H.1, ?_⟩
          rw [H.2]
          constructor
          · intro _; exact Or.inr hex
          · intro _; exact Or.inl hacc'
        · have hi0 : i = 0 := by omega
          subst hi0
          rw [stepChunk_usable_zero acc hd']
          have H := ih 1 t (Or.inr hct)
          refine ⟨H.1, ?_⟩
          rw [H.2]
          constructor
          · intro _; exact Or.inr hex
          · intro _; exact Or.inl hct

theorem transcribeMulti_eq_ok {outcomes : List ChunkOutcome}
    (h : hasContent (stitchGo 0 [] outcomes) = true) :
    transcribeMulti outcomes = StitchResult.ok (stitchGo 0 [] outcomes) := by
  unfold transcribeMulti
  simp [content_nonnil h, content_trim_nonempty h]

theorem transcribeMulti_eq_error {outcomes : List ChunkOutcome}
    (h : hasContent (stitchGo 0 [] outcomes) = false) :
    transcribeMulti outcomes
      = StitchResult.error ("Failed to transcribe any audio content from the chunks".data) := by
  have h2 : (jsTrim (stitchGo 0 [] outcomes)).isEmpty = true := by
    rw [(jsTrim_eq_nil_iff _).mpr h]; rfl
  unfold transcribeMulti
  simp [h2]

theorem stitchGo_content_iff (outcomes : List ChunkOutcome) :
    hasContent (stitchGo 0 [] outcomes) = true ↔
      ∃ o ∈ outcomes, discardable o = false := by
  rw [(stitchGo_content outcomes 0 [] (Or.inl rfl)).2]
  simp [hasContent]

/-! ### Claim theorems about the chunk stitcher -/

/-- C4: in multi-segment mode the stitch loop throws its empty-result error
    exactly when every chunk outcome is discardable (failed call, prompt echo
    or blank text); when at least one chunk is usable the result is a
    non-blank combined transcription and no error is raised. -/
theorem transcribeMulti_empty_iff (outcomes : List ChunkOutcome) :
    ((∃ e, transcribeMulti outcomes = StitchResult.error e) ↔
      ∀ o ∈ outcomes, discardable o = true)
    ∧ ((∃ o ∈ outcomes, discardable o = false) →
      ∃ s, transcribeMulti outcomes = StitchResult.ok s ∧ jsTrim s ≠ []) := by
  constructor
  · constructor
    · rintro ⟨e, he⟩ o ho
      by_contra hdo
      have hdo' : discardable o = false := by revert hdo; cases discardable o <;> simp
      have hcont : hasContent (stitchGo 0 [] outcomes) = true :=
        (stitchGo_content_iff outcomes).mpr ⟨o, ho, hdo'⟩
      rw [transcribeMulti_eq_ok hcont] at he
      cases he
    · intro hall
      refine ⟨_, transcribeMulti_eq_error ?_⟩
      by_contra hc
      have hc' : hasContent (stitchGo 0 [] outcomes) = true := by
        revert hc; cases hasContent (stitchGo 0 [] outcomes) <;> simp
      obtain ⟨o, ho, hdo⟩ := (stitchGo_content_iff outcomes).mp hc'
      rw [hall o ho] at hdo
      cases hdo
  · rintro ⟨o, ho, hdo⟩
    have hcont : hasContent (stitchGo 0 [] outcomes) = true :=
      (stitchGo_content_iff outcomes).mpr ⟨o, ho, hdo⟩
    refine ⟨_, transcribeMulti_eq_ok hcont, ?_⟩
    intro hn
    have h2 := content_trim_nonempty hcont
    rw [hn] at h2
    simp at h2

/-- Witness for C4 at a concrete input: one failed chunk and one usable chunk
    give a successful, non-blank stitched result. -/
theorem transcribeMulti_empty_iff_witness :
    ∃ s, transcribeMulti [ChunkOutcome.failure, ChunkOutcome.text ("hi there".data)]
      = StitchResult.ok s ∧ jsTrim s ≠ [] :=
  (transcribeMulti_empty_iff _).2 ⟨ChunkOutcome.text ("hi there".data), by decide, by decide⟩

/-- C3 counterexample: stitching a discardable first partial followed by the
    usable partial "hello" yields " hello" (with a leading space inherited
    from the join branch, because the loop tests the loop index rather than
    first-usable), not exactly "hello". -/
theorem stitch_discard_first_not_exact :
    transcribeMulti [ChunkOutcome.text [], ChunkOutcome.text ("hello".data)]
      = StitchResult.ok (" hello".data)
    ∧ (" hello".data : List Char) ≠ "hello".data :=
  ⟨by decide, by decide⟩

/-- C3 amended: a discardable partial never contributes text, but when every
    partial before the first usable one is discardable the usable partial B
    is appended to the empty accumulator through the join branch, so the
    stitched result is one space followed by B, not exactly B. -/
theorem stitch_skips_discardable (ds : List ChunkOutcome) (t : List Char)
    (hne : ds ≠ []) (hds : ∀ o ∈ ds, discardable o = true)
    (ht : discardable (ChunkOutcome.text t) = false) :
    transcribeMulti (ds ++ [ChunkOutcome.text t]) = StitchResult.ok (' ' :: t) := by
  have hlen : 0 < ds.length := List.length_pos.mpr hne
  have h1 : stitchGo 0 [] (ds ++ [ChunkOutcome.text t])
      = stitchGo (0 + ds.length) [] [ChunkOutcome.text t] :=
    stitchGo_skip_discarded ds _ 0 [] hds
  have h2 : stitchGo (0 + ds.length) [] [ChunkOutcome.text t] = joinChunk [] t := by
    rw [stitchGo_cons, stepChunk_usable_pos [] (by omega) ht]
    rfl
  have h3 : stitchGo 0 [] (ds ++ [ChunkOutcome.text t]) = ' ' :: t := by
    rw [h1, h2, joinChunk_nil]
  have hct : hasContent (' ' :: t) = true := by
    rw [hasContent_cons_space]
    exact trim_nonempty_content (discardable_text_false ht).2
  have hok := @transcribeMulti_eq_ok (ds ++ [ChunkOutcome.text t])
    (by rw [h3]; exact hct)
  rw [hok, h3]

/-- Witness for the amended C3 at a concrete input. -/
theorem stitch_skips_discardable_witness :
    transcribeMulti [ChunkOutcome.text [], ChunkOutcome.text ("hello".data)]
      = StitchResult.ok (' ' :: "hello".data) :=
  stitch_skips_discardable [ChunkOutcome.text []] ("hello".data)
    (by decide) (by decide) (by decide)

/-- C5: a transcription failure of a chunk other than the first is never
    fatal and leaves the stitched result untouched: deleting a failure
    outcome from any position after the first changes nothing; in particular
    when chunk 2 of 3 fails, the result is exactly the stitch of chunks
    1 and 3. -/
theorem chunk_failure_not_fatal :
    (∀ (a : ChunkOutcome) (xs ys : List ChunkOutcome),
      transcribeMulti (a :: (xs ++ ChunkOutcome.failure :: ys))
        = transcribeMulti (a :: (xs ++ ys)))
    ∧ transcribeMulti [ChunkOutcome.text ("hello there".data), ChunkOutcome.failure,
        ChunkOutcome.text ("general kenobi".data)]
      = StitchResult.ok ("hello there. general kenobi".data) := by
  constructor
  · intro a xs ys
    have h : stitchGo 0 [] (a :: (xs ++ ChunkOutcome.failure :: ys))
        = stitchGo 0 [] (a :: (xs ++ ys)) := by
      rw [stitchGo_cons, stitchGo_cons]
      exact stitchGo_failure_skip xs ys 1 _ Nat.one_pos
    unfold transcribeMulti
    rw [h]
  · decide

/-- C2 counterexample: with accumulated text "the quick brown fox jumps" and
    new partial "brown fox jumps over the lazy dog", neither five-word window
    contains the other, so no overlap is detected and the stitched result
    contains "brown fox jumps" twice. -/
theorem stitch_overlap_example_repeats :
    transcribeMulti [ChunkOutcome.text ("the quick brown fox jumps".data),
        ChunkOutcome.text ("brown fox jumps over the lazy dog".data)]
      = StitchResult.ok (("the quick brown fox jumps. brown fox jumps over the lazy dog").data)
    ∧ countSubstr (("the quick brown fox jumps. brown fox jumps over the lazy dog").data)
        ("brown fox jumps".data) = 2 :=
  ⟨by decide, by decide⟩

/-- C2 amended: the trimming mechanism works as described when the overlap
    heuristic fires and the tail occurs at a non-zero offset; but on the
    quoted example the heuristic does not fire (neither five-word window is a
    substring of the other), so the repeated text is kept. -/
theorem overlap_trim_mechanism :
    (∀ (acc t : List Char) (idx : Nat),
      overlapDetected acc t = true →
      jsIndexOf (jsLower t) (lastWordsOf acc) = some idx →
      0 < idx →
      joinChunk acc t = acc ++ ' ' :: t.drop (idx + (lastWordsOf acc).length))
    ∧ overlapDetected ("the quick brown fox jumps".data)
        ("brown fox jumps over the lazy dog".data) = false := by
  constructor
  · intro acc t idx h1 h2 h3
    simp [joinChunk, joinSuffix, h1, h2, h3]
  · decide

/-- Witness for the amended C2 at a concrete overlapping input. -/
theorem overlap_trim_mechanism_witness :
    joinChunk ("the fox".data) ("so the fox ran away quickly".data)
      = ("the fox".data) ++ ' ' ::
          (("so the fox ran away quickly".data).drop
            (3 + (lastWordsOf ("the fox".data)).length)) :=
  overlap_trim_mechanism.1 _ _ 3 (by decide) (by decide) (by decide)

/-- C6: when no overlap is detected, the new partial is appended after a
    separator that is a single space when either boundary character is one of
    the four punctuation marks and a period-plus-space otherwise; stitching
    three usable chunks with no detected overlaps concatenates them in order
    with those separators. -/
theorem no_overlap_separator :
    (∀ acc t : List Char, overlapDetected acc t = false →
      joinChunk acc t
        = acc ++ (if boundaryPunct acc t then ' ' :: t else '.' :: ' ' :: t))
    ∧ transcribeMulti [ChunkOutcome.text ("alpha beta".data),
        ChunkOutcome.text ("gamma delta".data), ChunkOutcome.text ("epsilon zeta".data)]
      = StitchResult.ok ("alpha beta. gamma delta. epsilon zeta".data)
    ∧ transcribeMulti [ChunkOutcome.text ("one.".data), ChunkOutcome.text ("two".data)]
      = StitchResult.ok ("one. two".data) := by
  refine ⟨?_, by decide, by decide⟩
  intro acc t h
  simp [joinChunk, joinSuffix, h]

/-- Witness for C6 at a concrete no-overlap input. -/
theorem no_overlap_separator_witness :
    joinChunk ("ab".data) ("cd".data)
      = ("ab".data) ++ (if boundaryPunct ("ab".data) ("cd".data) then ' ' :: "cd".data
          else '.' :: ' ' :: "cd".data) :=
  no_overlap_separator.1 _ _ (by decide)

/-! ### Claim theorems about audio splitting -/

/-- C1: with ffmpeg available, a probed duration d exceeding the maximum
    chunk duration m, and every extraction succeeding, splitAudioFile
    produces exactly ceil(d / m) chunks, chunk i being extracted from offset
    i * m with requested length m (so only the final chunk can come out
    shorter than m). -/
theorem splitAudioFile_segment_plan (d m : ℚ) (extractOk : Nat → Bool)
    (_hm : 0 < m) (hd : m < d)
    (hx : ∀ i < (⌈d / m⌉).toNat, extractOk i = true) :
    ∃ l, splitAudioFile true (ProbeResult.dur d) extractOk m
        = (SplitOutcome.chunks l, false)
      ∧ l.length = (⌈d / m⌉).toNat
      ∧ ∀ i (h : i < l.length),
          (l[i]).index = i ∧ (l[i]).start = (i : ℚ) * m ∧ (l[i]).len = m := by
  refine ⟨(List.range (⌈d / m⌉).toNat).map (fun i => ⟨i, (i : ℚ) * m, m⟩), ?_, ?_, ?_⟩
  · have hall : (List.range (⌈d / m⌉).toNat).all extractOk = true :=
      List.all_eq_true.mpr fun i hi => hx i (List.mem_range.mp hi)
    simp [splitAudioFile, not_le.mpr hd, hall]
  · simp
  · intro i h
    rw [List.length_map, List.length_range] at h
    simp [List.getElem_map, List.getElem_range]

/-- Witness for C1: duration 125 s, maximum 60 s, all extractions succeed. -/
theorem splitAudioFile_segment_plan_witness :
    ∃ l, splitAudioFile true (ProbeResult.dur 125) (fun _ => true) 60
        = (SplitOutcome.chunks l, false)
      ∧ l.length = (⌈(125 : ℚ) / 60⌉).toNat
      ∧ ∀ i (h : i < l.length),
          (l[i]).index = i ∧ (l[i]).start = (i : ℚ) * 60 ∧ (l[i]).len = 60 :=
  splitAudioFile_segment_plan 125 60 (fun _ => true) (by norm_num) (by norm_num)
    (fun i _ => rfl)

/-- C7 counterexample: the non-numeric-duration degraded case falls back to
    the pass-through but shows no user-visible warning — the source only
    writes to the console on that path, contradicting the claim that the
    degraded cases emit a user-visible warning. -/
theorem splitAudioFile_nan_no_warning :
    splitAudioFile true ProbeResult.nan (fun _ => true) 60
      = (SplitOutcome.passthrough, false) := rfl

/-- C7 amended: every degraded case (ffmpeg unavailable, probe error,
    non-numeric duration, duration at most the maximum, or a failed
    extraction) returns the single-element pass-through rather than aborting;
    a user-visible warning is emitted in the ffmpeg-unavailable, probe-error
    and extraction-failure cases, while the non-numeric-duration case is only
    logged to the console and the short-duration case is a silent normal
    no-op. -/
theorem splitAudioFile_degraded_passthrough :
    (∀ (probe : ProbeResult) (extractOk : Nat → Bool) (m : ℚ),
      splitAudioFile false probe extractOk m = (SplitOutcome.passthrough, true))
    ∧ (∀ (extractOk : Nat → Bool) (m : ℚ),
      splitAudioFile true ProbeResult.err extractOk m = (SplitOutcome.passthrough, true))
    ∧ (∀ (extractOk : Nat → Bool) (m : ℚ),
      splitAudioFile true ProbeResult.nan extractOk m = (SplitOutcome.passthrough, false))
    ∧ (∀ (d m : ℚ) (extractOk : Nat → Bool), d ≤ m →
      splitAudioFile true (ProbeResult.dur d) extractOk m = (SplitOutcome.passthrough, false))
    ∧ (∀ (d m : ℚ) (extractOk : Nat → Bool), m < d →
      (List.range (⌈d / m⌉).toNat).all extractOk = false →
      splitAudioFile true (ProbeResult.dur d) extractOk m
        = (SplitOutcome.passthrough, true)) := by
  refine ⟨fun _ _ _ => rfl, fun _ _ => rfl, fun _ _ => rfl, ?_, ?_⟩
  · intro d m e h
    simp [splitAudioFile, h]
  · intro d m e h1 h2
    simp [splitAudioFile, not_le.mpr h1, h2]

/-- Witness for the amended C7: the short-duration pass-through. -/
theorem splitAudioFile_degraded_witness :
    splitAudioFile true (ProbeResult.dur 30) (fun _ => true) 60
      = (SplitOutcome.passthrough, false) :=
  splitAudioFile_degraded_passthrough.2.2.2.1 30 60 (fun _ => true) (by norm_num)

/-! ### Claim theorems about continuation prompts -/

theorem promptsUsed_getD :
    ∀ (l : List ChunkOutcome) (lang : Option (List Char)) (i : Nat) (acc : List Char)
      (j : Nat), j < l.length →
      (promptsUsed lang i acc l).getD j []
        = promptFor lang (i + j) (stitchGo i acc (l.take j)) := by
  intro l
  induction l with
  | nil => intro lang i acc j h; simp at h
  | cons o rest ih =>
    intro lang i acc j h
    cases j with
    | zero => simp [promptsUsed, stitchGo]
    | succ j' =>
      have h' : j' < rest.length := by
        rw [List.length_cons] at h
        omega
      have hstep : (promptsUsed lang i acc (o :: rest)).getD (j' + 1) []
          = (promptsUsed lang (i + 1) (stepChunk i acc o) rest).getD j' [] := rfl
      rw [hstep, ih lang (i + 1) (stepChunk i acc o) j' h', List.take_succ_cons,
        stitchGo_cons]
      have heq : i + (j' + 1) = (i + 1) + j' := by omega
      rw [heq]

/-- C8 counterexample: "it" is one of the language codes the system
    recognizes, yet its continuation instruction is character for character
    the default English wording — the per-language table has no Italian form,
    so the instruction is not in the language of the expected speech. -/
theorem italian_prompt_english_fallback :
    ("it".data) ∈ recognizedLanguageCodes
    ∧ promptFor (some ("it".data)) 1 ("abc".data) = ("Continue from: \"abc\"").data
    ∧ promptFor (some ("it".data)) 1 ("abc".data) = promptFor none 1 ("abc".data) :=
  ⟨by decide, by decide, by decide⟩

/-- C8 amended: for every chunk after the first, the prompt used by the loop
    embeds exactly the trailing 150 characters of the text accumulated so far
    inside a quoted natural-language instruction; the instruction wording
    table covers the default/English form plus German, French and Spanish
    only, and every other recognized language code falls back to the English
    wording. -/
theorem continuation_prompt_structure :
    (∀ (lang : Option (List Char)) (l : List ChunkOutcome) (j : Nat),
      j < l.length → 0 < j →
      (promptsUsed lang 0 [] l).getD j []
        = promptFor lang j (stitchGo 0 [] (l.take j)))
    ∧ (∀ (lang : Option (List Char)) (i : Nat) (acc : List Char), 0 < i →
      ∃ pre, promptFor lang i acc = pre ++ jsTakeLast acc 150 ++ "\"".data)
    ∧ (∀ acc : List Char,
      jsTakeLast acc 150 <:+ acc ∧ (jsTakeLast acc 150).length = min 150 acc.length)
    ∧ (∀ c ∈ recognizedLanguageCodes, c ≠ "de".data → c ≠ "fr".data → c ≠ "es".data →
      ∀ (i : Nat) (acc : List Char), promptFor (some c) i acc = promptFor none i acc) := by
  refine ⟨?_, ?_, ?_, ?_⟩
  · intro lang l j hj _hp
    have h := promptsUsed_getD l lang 0 [] j hj
    simpa using h
  · intro lang i acc hi
    unfold promptFor
    rw [if_pos hi]
    cases lang with
    | none => exact ⟨"Continue from: \"".data, rfl⟩
    | some c =>
      by_cases h1 : c = "de".data
      · exact ⟨"Setze fort von: \"".data, by simp [h1]⟩
      · by_cases h2 : c = "fr".data
        · exact ⟨"Continuez à partir de: \"".data, by simp [h1, h2]⟩
        · by_cases h3 : c = "es".data
          · exact ⟨"Continúa desde: \"".data, by simp [h1, h2, h3]⟩
          · exact ⟨"Continue from: \"".data, by simp [h1, h2, h3]⟩
  · intro acc
    refine ⟨List.drop_suffix _ _, ?_⟩
    unfold jsTakeLast
    rw [List.length_drop]
    rcases le_total 150 acc.length with h | h
    · rw [Nat.sub_sub_self h, Nat.min_eq_left h]
    · rw [Nat.sub_eq_zero_of_le h, Nat.sub_zero, Nat.min_eq_right h]
  · intro c _hc h1 h2 h3 i acc
    unfold promptFor
    by_cases hi : 0 < i
    · simp [hi, h1, h2, h3]
    · simp [hi]

/-- Witness for the amended C8 at a concrete input. -/
theorem continuation_prompt_witness :
    ∃ pre, promptFor (some ("de".data)) 1 ("hello world".data)
      = pre ++ jsTakeLast ("hello world".data) 150 ++ "\"".data :=
  continuation_prompt_structure.2.1 (some ("de".data)) 1 ("hello world".data)
    (by decide)

/-! ### Claim theorems about temporary-file cleanup -/

/-- C9 counterexample: on the fatal transcription-failure exit path nothing
    is deleted — the run exits with an empty deleted-files list even though
    it owned a temporary recording file, contradicting deletion on every
    exit path. -/
theorem fatal_failure_skips_cleanup :
    (stopRecordingRun true true [("rec.wav".data)] TranscribeRun.err).2 = []
    ∧ ([("rec.wav".data)] : List (List Char)) ≠ [] :=
  ⟨rfl, by decide⟩

/-- C9 amended: cleanupTempFiles, when invoked, deletes exactly the listed
    files and leaves every other file untouched; stopRecording invokes it
    only on the success path with a non-blank transcription, and deletes
    nothing on the transcription-failure path (which instead copies the
    recording to a debug file) or on the blank-transcription return. -/
theorem cleanup_only_on_success :
    (∀ (files : List (List Char)) (existing : List Char → Bool) (f : List Char),
      f ∈ files → cleanupTempFiles files existing f = false)
    ∧ (∀ (files : List (List Char)) (existing : List Char → Bool) (f : List Char),
      f ∉ files → cleanupTempFiles files existing f = existing f)
    ∧ (∀ (files : List (List Char)) (t : List Char), (jsTrim t).isEmpty = false →
      stopRecordingRun true true files (TranscribeRun.ok t) = (some t, files))
    ∧ (∀ files : List (List Char),
      stopRecordingRun true true files TranscribeRun.err = (none, []))
    ∧ (∀ (files : List (List Char)) (t : List Char), (jsTrim t).isEmpty = true →
      stopRecordingRun true true files (TranscribeRun.ok t) = (none, [])) := by
  refine ⟨?_, ?_, ?_, fun _ => rfl, ?_⟩
  · intro files existing f hf
    simp [cleanupTempFiles, hf]
  · intro files existing f hf
    simp [cleanupTempFiles, hf]
  · intro files t h
    simp [stopRecordingRun, h]
  · intro files t h
    simp [stopRecordingRun, h]

/-- Witness for the amended C9: a listed file is gone after cleanup. -/
theorem cleanup_only_on_success_witness :
    cleanupTempFiles [("a.wav".data)] (fun _ => true) ("a.wav".data) = false :=
  cleanup_only_on_success.1 _ _ _ (by decide)

/-! ### Claim theorem about the single-shot echo check -/

/-- C10: in single-shot mode the prompt parameter sent to the service is the
    empty string, and the result is rejected as an echoed prompt precisely
    when its trim equals one of the two fixed literal English instruction
    sentences — both of which differ from the empty prompt actually sent. -/
theorem single_shot_prompt_echo :
    singleShotPrompt = []
    ∧ (∀ result : List Char,
      transcribeSingle result = SingleShotOutcome.promptEchoError ↔
        (jsTrim result = echoPrompt1 ∨ jsTrim result = echoPrompt2))
    ∧ echoPrompt1 ≠ singleShotPrompt ∧ echoPrompt2 ≠ singleShotPrompt := by
  refine ⟨rfl, ?_, by decide, by decide⟩
  intro result
  constructor
  · intro h
    unfold transcribeSingle at h
    by_cases h1 : (jsTrim result).isEmpty = true
    · rw [if_pos h1] at h
      cases h
    · rw [if_neg h1] at h
      by_cases h2 : jsTrim result = echoPrompt1 ∨ jsTrim result = echoPrompt2
      · exact h2
      · rw [if_neg h2] at h
        cases h
  · intro h2
    have hne : (jsTrim result).isEmpty = false := by
      rcases h2 with h | h <;> rw [h] <;> decide
    have hne' : ¬(jsTrim result).isEmpty = true := by rw [hne]; simp
    unfold transcribeSingle
    rw [if_neg hne', if_pos h2]

/-- Witness for C10: the first instruction literal itself is rejected as an
    echoed prompt. -/
theorem single_shot_prompt_echo_witness :
    transcribeSingle echoPrompt1 = SingleShotOutcome.promptEchoError :=
  (single_shot_prompt_echo.2.1 echoPrompt1).mpr (Or.inl (by decide))
